import Mathlib

/-!
Verification development for the rebound retry library.

This file gives a shallow embedding, in Lean, of the library's core:
the retry orchestration loop (src/retry.ts), its pre-attempt checks
(src/retry/pre-checks.ts), the per-attempt executor
(src/retry/attempt-handler.ts), the circuit breaker
(src/circuit-breaker.ts), the rate-limit tracker
(src/rate-limit-tracker.ts), the metrics reduction (src/utils/metrics.ts),
Retry-After parsing (src/parse-retry-after.ts), option validation
(src/validation.ts) and the default HTTP failure classifier
(src/classifiers).

Modelling conventions:
* JavaScript numbers are modelled by `JSNum` (NaN, the two infinities, or a
  rational) where non-finite values matter, and by `ℤ` for clock values and
  millisecond delays (every delay the engine stores has been floored to an
  integer by the code itself).
* `Date.now()` is modelled by an explicit clock threaded through the loop;
  sleeping for `d` ms advances the clock by `d`.
* The operation, the classifier, the policy, `Math.random()` and `Date`
  string parsing are inputs of the run (`Env`): the operation is a stream of
  outcomes indexed by invocation count, `Math.random()` a stream of
  rationals indexed by draw count, and `Date` parsing an oracle
  `String → Option ℤ` (its behaviour is host-defined in JS).
* The combined cancellation signal (external signal merged with the
  timeout controller by combineSignals/setupTimeout) is modelled by the
  absolute time `abortAt` at which it fires, if ever.
* Event emission (`onEvent`) is a pure side channel and is not modelled;
  no claim in scope depends on it.  Error message strings are kept but the
  numeric interpolations of the source messages are elided.
-/

/-- Failure domains, from src/types.ts (`FailureDomain`). -/
inductive FailureDomain
  | rateLimit
  | transient
  | permanent
  | unknown
deriving DecidableEq, Repr

/-- A JavaScript value returned by the retried operation; `undef` stands for
`undefined`, which the success branch of the loop treats specially. -/
inductive JsValue
  | undef
  | val (n : ℤ)
deriving DecidableEq, Repr

/-- An `Error` object as the library consumes it: message plus the direct
`status` / `headers` / `retryAfter` fields of `ErrorWithResponse`
(src/types.ts).  `createHttpError` sets the same data both on `response` and
directly on the error, and `extractResponseMetadata` computes the same
metadata from either format, so one copy of the fields suffices. -/
structure JsError where
  message : String := ""
  status : Option ℤ := none
  headers : Option (List (String × String)) := none
  retryAfter : Option ℤ := none
deriving DecidableEq, Repr

/-- A thrown JavaScript value: an `Error` object or a raw non-error value
(modelled by its string rendering, which is what `new Error(String(err))`
keeps). -/
inductive ThrownValue
  | errObj (e : JsError)
  | rawValue (s : String)
deriving DecidableEq, Repr

/-- One invocation outcome of the user operation `fn`. -/
inductive OpOutcome
  | ok (v : JsValue)
  | thrown (t : ThrownValue)
deriving DecidableEq, Repr

/-- The errors the engine can throw (src/errors.ts together with the two
plain `Error` throws of src/retry.ts): the user's original error, a
`RetryCancelledError`, the generic `Error("Unknown error")`, or a
`RetryExhaustedError` carrying attempt count, last error and its domain. -/
inductive EngineError
  | user (e : JsError)
  | cancelledErr
  | unknownErr
  | exhausted (attempts : Nat) (lastError : Option JsError) (domain : Option FailureDomain)
deriving DecidableEq, Repr

/-- An attempt record (src/types.ts `RetryAttempt`): the discriminated
union is rendered with `result = some v` for the success variant and
`error = some e` for the failure variant. -/
structure RetryAttempt where
  attempt : Nat
  result : Option JsValue
  error : Option EngineError
  failureDomain : FailureDomain
  delay : ℤ
  timestamp : ℤ
deriving DecidableEq, Repr

/-- A JavaScript number as validation and policies see it. -/
inductive JSNum
  | nan
  | inf
  | negInf
  | num (q : ℚ)
deriving DecidableEq, Repr

/-- `Number.isFinite`. -/
def jsIsFinite : JSNum → Bool
  | .num _ => true
  | _ => false

/-- `Number.isInteger`. -/
def jsIsInteger : JSNum → Bool
  | .num q => q.den = 1
  | _ => false

/-- `x < c` for a JS number `x` and a real constant `c` (false for NaN). -/
def jsLtQ : JSNum → ℚ → Bool
  | .num q, c => decide (q < c)
  | .negInf, _ => true
  | _, _ => false

/-- `x ≤ c` for a JS number `x` and a real constant `c` (false for NaN). -/
def jsLeQ : JSNum → ℚ → Bool
  | .num q, c => decide (q ≤ c)
  | .negInf, _ => true
  | _, _ => false

/-- The natural number a validated `maxAttempts` denotes. -/
def jsNumToNat : JSNum → Nat
  | .num q => q.num.toNat
  | _ => 0

/-- Whitespace skipped by JS `parseInt`. -/
def isJsSpace (c : Char) : Bool :=
  c = ' ' || c = '\t' || c = '\n' || c = '\r' || c = '\x0b' || c = '\x0c'

/-- Decimal digit test. -/
def isDigitChar (c : Char) : Bool := '0' ≤ c && c ≤ '9'

/-- Value of the leading run of decimal digits, if non-empty. -/
def leadingDigitsVal (cs : List Char) : Option ℤ :=
  let ds := cs.takeWhile isDigitChar
  if ds = [] then none
  else some ((ds.foldl (fun a c => a * 10 + (c.toNat - Char.toNat '0')) 0 : Nat) : ℤ)

/-- JS `parseInt(s, 10)`: skip leading whitespace, optional sign, longest
run of decimal digits; `none` models `NaN`. -/
def jsParseInt (s : String) : Option ℤ :=
  let cs := s.toList.dropWhile isJsSpace
  match cs with
  | '-' :: rest => (leadingDigitsVal rest).map (fun n => -n)
  | '+' :: rest => leadingDigitsVal rest
  | _ => leadingDigitsVal cs

/-- `parseRetryAfter` (src/parse-retry-after.ts).  `dateParse` is the host's
`new Date(string).getTime()` oracle in epoch ms (`none` when invalid), and
`now` is `Date.now()`.  A falsy (absent or empty) header yields no value;
an integer parse wins; otherwise a parsable date yields
`max(0, floor((date − now)/1000))`. -/
def parseRetryAfter (dateParse : String → Option ℤ) (now : ℤ) (header : Option String) :
    Option ℤ :=
  match header with
  | none => none
  | some s =>
    if s = "" then none
    else
      match jsParseInt s with
      | some k => some k
      | none =>
        match dateParse s with
        | some t => some (max 0 (Int.fdiv (t - now) 1000))
        | none => none

/-- Case-insensitive lowering of a string (JS `toLowerCase`, ASCII range). -/
def strToLower (s : String) : String := String.mk (s.data.map Char.toLower)

/-- Lookup in a parsed header map. -/
def lookupHeader (hs : List (String × String)) (name : String) : Option String :=
  (hs.find? (fun kv => kv.1 = name)).map (fun kv => kv.2)

/-- List prefix test on characters. -/
def startsWithList : List Char → List Char → Bool
  | [], _ => true
  | _ :: _, [] => false
  | a :: as, b :: bs => a = b && startsWithList as bs

/-- Substring containment on characters. -/
def containsSublist (pat : List Char) : List Char → Bool
  | [] => startsWithList pat []
  | c :: cs => startsWithList pat (c :: cs) || containsSublist pat cs

/-- JS `haystack.includes(needle)`. -/
def strIncludes (hay pat : String) : Bool := containsSublist pat.toList hay.toList

/-- Response metadata handed to the classifier (src/types.ts
`ResponseMetadata`). -/
structure ResponseMetadata where
  status : Option ℤ := none
  headers : Option (List (String × String)) := none
  retryAfter : Option ℤ := none
deriving DecidableEq, Repr

/-- `extractResponseMetadata` (src/utils.ts) on the direct-field error
format: an error with neither `status` nor `headers` (nor a `response`
object, which in this model always mirrors those fields) is not an HTTP
error and yields no metadata.  Header keys are lower-cased, a truthy
`retry-after` header is parsed, otherwise the error's own `retryAfter`
field is used; an empty header map is returned as `none`. -/
def extractResponseMetadata (dateParse : String → Option ℤ) (now : ℤ) (e : JsError) :
    Option ResponseMetadata :=
  if e.status = none ∧ e.headers = none then none
  else
    let hs := (e.headers.getD []).map (fun kv => (strToLower kv.1, kv.2))
    let retryAfter : Option ℤ :=
      match lookupHeader hs "retry-after" with
      | some v => if v = "" then e.retryAfter else parseRetryAfter dateParse now (some v)
      | none => e.retryAfter
    some { status := e.status
           headers := if hs = [] then none else some hs
           retryAfter := retryAfter }

/-- The transient-indicating message tokens of the default classifier. -/
def transientTokens : List String :=
  ["timeout", "econnreset", "enotfound", "econnrefused",
   "etimedout", "network", "temporary", "unavailable"]

/-- `HttpFailureClassifier.classify` (src/classifiers): status 429, then a
truthy Retry-After value, then truthy status ≥ 500, then truthy status in
[400, 500), then case-insensitive message tokens, else unknown. -/
def httpClassify (e : JsError) (response : Option ResponseMetadata) : FailureDomain :=
  let status := response.bind (fun r => r.status)
  let ra := response.bind (fun r => r.retryAfter)
  if status = some 429 then .rateLimit
  else if (match ra with | some k => decide (k ≠ 0) | none => false : Bool) then .rateLimit
  else if (match status with
           | some s => decide (s ≠ 0) && decide (500 ≤ s)
           | none => false : Bool) then .transient
  else if (match status with
           | some s => decide (s ≠ 0) && decide (400 ≤ s) && decide (s < 500)
           | none => false : Bool) then
    .permanent
  else if transientTokens.any (fun pat => strIncludes (strToLower e.message) pat) then
    .transient
  else .unknown

/-- `MIN_DELAY_MS` (src/constants.ts). -/
def MIN_DELAY_MS : ℤ := 0

/-- `MAX_REASONABLE_DELAY_MS` (src/constants.ts). -/
def MAX_REASONABLE_DELAY_MS : ℤ := 300000

/-- `RATE_LIMIT_JITTER_FACTOR` (src/constants.ts), documented there as a
±10% jitter factor for rate-limit Retry-After delays. -/
def RATE_LIMIT_JITTER_FACTOR : ℚ := 1 / 10

/-- `validateRetryOptions` invalid-`maxAttempts` test (src/validation.ts):
`!Number.isInteger(maxAttempts) || maxAttempts < 1`. -/
def invalidMaxAttempts (j : JSNum) : Bool := !jsIsInteger j || jsLtQ j 1

/-- `validateRetryOptions` invalid-`timeout` test (src/validation.ts):
`!Number.isFinite(timeout) || timeout <= 0`. -/
def invalidTimeout (j : JSNum) : Bool := !jsIsFinite j || jsLeQ j 0

/-- The timeout half of `validateRetryOptions`. -/
def validateTimeoutOpt : Option JSNum → Option String
  | some t => if invalidTimeout t then some "timeout must be a positive number" else none
  | none => none

/-- `validateRetryOptions` (src/validation.ts): returns the message of the
`RetryConfigurationError` it throws, if any (maxAttempts is checked
first). -/
def validateRetryOptions (maxAttempts timeout : Option JSNum) : Option String :=
  match maxAttempts with
  | some m =>
    if invalidMaxAttempts m then some "maxAttempts must be a positive integer"
    else validateTimeoutOpt timeout
  | none => validateTimeoutOpt timeout

/-- `validateAndClampDelay` (src/validation.ts): null passes through; a
non-finite or negative delay clamps to `MIN_DELAY_MS`; otherwise
`min(floor(delay), MAX_REASONABLE_DELAY_MS)`. -/
def validateAndClampDelay : Option JSNum → Option ℤ
  | none => none
  | some (.num q) => some (if q < 0 then MIN_DELAY_MS else min ⌊q⌋ MAX_REASONABLE_DELAY_MS)
  | some _ => some MIN_DELAY_MS

/-- Circuit breaker state (src/circuit-breaker.ts `CircuitState`). -/
inductive CircuitState
  | closed
  | open
  | halfOpen
deriving DecidableEq, Repr

/-- `CircuitBreakerParams` (the `onStateChange` callback is a pure side
channel and is not modelled). -/
structure CBParams where
  failureThreshold : Nat
  successThreshold : Nat
  timeout : ℤ
deriving DecidableEq, Repr

/-- Circuit breaker instance state (src/circuit-breaker.ts). -/
structure CircuitBreaker where
  params : CBParams
  state : CircuitState := .closed
  failureCount : Nat := 0
  successCount : Nat := 0
  lastFailureTime : Option ℤ := none
deriving DecidableEq, Repr

/-- `new CircuitBreaker(params)`: fields start at their declared
initialisers. -/
def CircuitBreaker.init (p : CBParams) : CircuitBreaker := { params := p }

/-- `canExecute` (src/circuit-breaker.ts): closed admits; open admits and
transitions to half-open when a truthy `lastFailureTime` is at least
`timeout` ms in the past; half-open admits.  Returns the admission flag
together with the (possibly transitioned) breaker. -/
def CircuitBreaker.canExecute (cb : CircuitBreaker) (now : ℤ) : Bool × CircuitBreaker :=
  match cb.state with
  | .closed => (true, cb)
  | .open =>
    match cb.lastFailureTime with
    | some t =>
      if t ≠ 0 ∧ cb.params.timeout ≤ now - t then (true, { cb with state := .halfOpen })
      else (false, cb)
    | none => (false, cb)
  | .halfOpen => (true, cb)

/-- `recordSuccess` (src/circuit-breaker.ts).  While half-open, the success
counter is bumped and reaching `successThreshold` closes the breaker and
zeroes the success counter (the failure counter is left as is, exactly as
in the source); while closed, the failure counter resets. -/
def CircuitBreaker.recordSuccess (cb : CircuitBreaker) : CircuitBreaker :=
  match cb.state with
  | .halfOpen =>
    if cb.params.successThreshold ≤ cb.successCount + 1 then
      { cb with state := .closed, successCount := 0 }
    else { cb with successCount := cb.successCount + 1 }
  | .closed => { cb with failureCount := 0 }
  | .open => cb

/-- `recordFailure` (src/circuit-breaker.ts): stamps `lastFailureTime`,
bumps the failure counter, reopens from half-open (zeroing the success
counter), and opens from closed once the counter reaches
`failureThreshold`. -/
def CircuitBreaker.recordFailure (cb : CircuitBreaker) (now : ℤ) : CircuitBreaker :=
  let cb1 := { cb with lastFailureTime := some now, failureCount := cb.failureCount + 1 }
  match cb1.state with
  | .halfOpen => { cb1 with state := .open, successCount := 0 }
  | .closed =>
    if cb1.params.failureThreshold ≤ cb1.failureCount then { cb1 with state := .open }
    else cb1
  | .open => cb1

/-- `RateLimitState` (src/types.ts); the optional `perEndpoint` map is not
modelled because the engine never passes an endpoint. -/
structure RateLimitState where
  remaining : ℤ
  resetAt : ℤ
  limit : ℤ
deriving DecidableEq, Repr

/-- `RateLimitTracker` (src/rate-limit-tracker.ts). -/
structure RateLimitTracker where
  state : Option RateLimitState
deriving DecidableEq, Repr

/-- `isRateLimited`: true iff state is present, `remaining ≤ 0` and
`now < resetAt`. -/
def RateLimitTracker.isRateLimited (tr : RateLimitTracker) (now : ℤ) : Bool :=
  match tr.state with
  | some st => decide (st.remaining ≤ 0) && decide (now < st.resetAt)
  | none => false

/-- `getTimeUntilReset`: `max(0, resetAt − now)`, or `none` without
state. -/
def RateLimitTracker.getTimeUntilReset (tr : RateLimitTracker) (now : ℤ) : Option ℤ :=
  match tr.state with
  | some st => some (max 0 (st.resetAt - now))
  | none => none

/-- `decrement` (global state; the engine never passes an endpoint):
remaining floors at 0. -/
def RateLimitTracker.decrement (tr : RateLimitTracker) : RateLimitTracker :=
  match tr.state with
  | some st => { state := some { st with remaining := max 0 (st.remaining - 1) } }
  | none => tr

/-- Header-int parse used by `updateFromHeaders`: a falsy (missing or
empty) value is `null`, otherwise `parseInt`. -/
def parseHeaderInt (hs : List (String × String)) (name : String) : Option ℤ :=
  match lookupHeader hs name with
  | some v => if v = "" then none else jsParseInt v
  | none => none

/-- `updateFromHeaders` (global branch): replaces the whole state only when
all three `x-ratelimit-*` headers parse; `reset` is epoch seconds and is
scaled to ms. -/
def RateLimitTracker.updateFromHeaders (tr : RateLimitTracker)
    (hs : List (String × String)) : RateLimitTracker :=
  match parseHeaderInt hs "x-ratelimit-remaining",
        parseHeaderInt hs "x-ratelimit-limit",
        parseHeaderInt hs "x-ratelimit-reset" with
  | some remaining, some limit, some reset =>
    { state := some { remaining := remaining, resetAt := reset * 1000, limit := limit } }
  | _, _, _ => tr

/-- The four-key failure-domain distribution of `computeMetrics`
(src/utils/metrics.ts): a record with all four domains present,
zero-initialised. -/
structure DomainCounts where
  rateLimit : Nat := 0
  transient : Nat := 0
  permanent : Nat := 0
  unknown : Nat := 0
deriving DecidableEq, Repr

/-- Increment the counter of one domain. -/
def DomainCounts.bump (dc : DomainCounts) : FailureDomain → DomainCounts
  | .rateLimit => { dc with rateLimit := dc.rateLimit + 1 }
  | .transient => { dc with transient := dc.transient + 1 }
  | .permanent => { dc with permanent := dc.permanent + 1 }
  | .unknown => { dc with unknown := dc.unknown + 1 }

/-- `RetryMetrics` (src/types.ts). -/
structure RetryMetrics where
  retryRate : ℚ
  successRate : ℚ
  averageDelay : ℚ
  failureDomainDistribution : DomainCounts
  totalRetries : Nat
deriving DecidableEq, Repr

/-- `computeMetrics` (src/utils/metrics.ts): `totalRetries = max(0, n−1)`
(natural subtraction), `retryRate = totalRetries/n` for `n > 1` else 0,
binary `successRate`, `averageDelay` the mean of the strictly positive
delays of all attempts but the last, and a per-domain count of the
attempts that carry an error. -/
def computeMetrics (attempts : List RetryAttempt) (wasSuccessful : Bool) : RetryMetrics :=
  let totalAttempts := attempts.length
  let totalRetries := totalAttempts - 1
  let retryRate : ℚ :=
    if 1 < totalAttempts then (totalRetries : ℚ) / (totalAttempts : ℚ) else 0
  let successRate : ℚ := if wasSuccessful then 1 else 0
  let delays := (attempts.dropLast.map (fun a => a.delay)).filter (fun d => 0 < d)
  let averageDelay : ℚ :=
    if 0 < delays.length then ((delays.foldl (fun s d => s + d) 0 : ℤ) : ℚ) / (delays.length : ℚ)
    else 0
  let dist := attempts.foldl
    (fun acc a => if a.error ≠ none then acc.bump a.failureDomain else acc) {}
  { retryRate := retryRate
    successRate := successRate
    averageDelay := averageDelay
    failureDomainDistribution := dist
    totalRetries := totalRetries }

/-- Whether an attempt record carries an error classified in domain `d`. -/
def hasErrorIn (d : FailureDomain) (a : RetryAttempt) : Bool :=
  a.error.isSome && decide (a.failureDomain = d)

/-- The reference reading of the metrics contract, written from the spec's
formulas: `retryRate = (n−1)/n` (rational subtraction) for `n > 1`,
`averageDelay` the mean of the strictly positive delays among all but the
last attempt, the distribution a `countP` per domain over attempts carrying
an error, and `totalRetries = n − 1`. -/
def specMetrics (attempts : List RetryAttempt) (wasSuccessful : Bool) : RetryMetrics :=
  let n := attempts.length
  let ds := (attempts.dropLast.map (fun a => a.delay)).filter (fun d => 0 < d)
  { retryRate := if 1 < n then ((n : ℚ) - 1) / (n : ℚ) else 0
    successRate := if wasSuccessful then 1 else 0
    averageDelay := if ds = [] then 0 else ((ds.sum : ℤ) : ℚ) / (ds.length : ℚ)
    failureDomainDistribution :=
      { rateLimit := attempts.countP (hasErrorIn .rateLimit)
        transient := attempts.countP (hasErrorIn .transient)
        permanent := attempts.countP (hasErrorIn .permanent)
        unknown := attempts.countP (hasErrorIn .unknown) }
    totalRetries := n - 1 }

/-- The run environment: everything the loop consumes from the outside
world.  `op` is the stream of operation outcomes indexed by invocation
count, `rand` the stream of `Math.random()` draws, `dateParse` the host's
date parser, `abortAt` the absolute firing time of the combined
cancellation signal (external signal merged with the timeout controller),
and `start` the value of `Date.now()` when the run begins. -/
structure Env where
  op : Nat → OpOutcome
  classify : JsError → Option ResponseMetadata → FailureDomain
  policy : Nat → FailureDomain → JsError → Option JSNum
  rand : Nat → ℚ
  dateParse : String → Option ℤ
  abortAt : Option ℤ
  start : ℤ

/-- The configuration of one `retry(params)` call (src/types.ts
`RetryParams`): the fields the modelled engine reads.  A missing
`maxAttempts` defaults to `DEFAULT_MAX_ATTEMPTS = 3` at destructuring
time; `idempotent` is advisory only and ignored by the engine. -/
structure RetryParamsM where
  maxAttempts : Option JSNum := none
  timeout : Option JSNum := none
  circuitBreaker : Option CBParams := none
  rateLimitState : Option RateLimitState := none

/-- Mutable state threaded through one orchestration run.  `attempts` is
the pushed history; `invocations`, `waitIters`, `preflightTerminals` and
`sleepCancels` count, respectively, calls of the operation, rate-limit
wait iterations, terminal pre-check records, and cancelled-sleep records
(the indices into the `op`/`rand` streams make the first two part of the
semantics, the last two are the same style of stream accounting). -/
structure RunState where
  attempts : List RetryAttempt := []
  cb : Option CircuitBreaker := none
  rlt : Option RateLimitTracker := none
  time : ℤ := 0
  invocations : Nat := 0
  randIdx : Nat := 0
  waitIters : Nat := 0
  preflightTerminals : Nat := 0
  sleepCancels : Nat := 0

/-- Whether the combined signal is already aborted at time `t`. -/
def jsAborted (env : Env) (t : ℤ) : Bool :=
  match env.abortAt with
  | some a => decide (a ≤ t)
  | none => false

/-- Whether a sleep of `d` ms starting at time `t` is interrupted by the
combined signal (it is when the signal fires at or before the wake-up
time). -/
def sleepCancelled (env : Env) (t d : ℤ) : Bool :=
  match env.abortAt with
  | some a => decide (a ≤ t + d)
  | none => false

/-- The cancellation attempt record built by `performPreChecks` and by the
cancelled inter-attempt sleep handler: a zero-delay failure tagged
`Unknown` carrying a `RetryCancelledError`. -/
def cancelAttemptRecord (attempt : Nat) (t : ℤ) : RetryAttempt :=
  { attempt := attempt, result := none, error := some .cancelledErr,
    failureDomain := .unknown, delay := 0, timestamp := t }

/-- The circuit-breaker refusal record of `performPreChecks`: a zero-delay
failure tagged `Transient` carrying a plain `Error` whose message names the
breaker state. -/
def breakerAttemptRecord (attempt : Nat) (s : CircuitState) (t : ℤ) : RetryAttempt :=
  { attempt := attempt, result := none,
    error := some (.user { message := "Circuit breaker is " ++
      (match s with
       | .closed => "closed"
       | .open => "open"
       | .halfOpen => "half-open") }),
    failureDomain := .transient, delay := 0, timestamp := t }

/-- The rate-limit wait record of `performPreChecks`: a failure tagged
`RateLimit` whose delay is the remaining wait. -/
def rateLimitWaitRecord (attempt : Nat) (w : ℤ) (t : ℤ) : RetryAttempt :=
  { attempt := attempt, result := none,
    error := some (.user { message := "Rate limit active" }),
    failureDomain := .rateLimit, delay := w, timestamp := t }

/-- The pre-check result as the loop consumes it.  The source's
`PreCheckResult` record (`shouldProceed`, optional `attemptRecord`,
optional `delay`) is rendered as a sum: `terminate rec` is
`shouldProceed = false` with a record (the loop throws), `wait rec d` is
`shouldProceed = true` with a record and a delay that passes the loop's
`delay > 0` guard (the loop pushes the record, sleeps and continues), and
`proceed` covers every shape the loop's two guards let fall through to the
actual invocation. -/
inductive PreCheckRes
  | terminate (rec : RetryAttempt)
  | wait (rec : RetryAttempt) (delay : ℤ)
  | proceed

/-- The rate-limit half of `performPreChecks` (src/retry/pre-checks.ts):
an exhausted tracker yields a wait for `getTimeUntilReset` (the loop's
`delay > 0` guard is rendered here, see `PreCheckRes`). -/
def rateLimitCheck (attempt : Nat) (st : RunState) : PreCheckRes × RunState :=
  match st.rlt with
  | some tr =>
    if tr.isRateLimited st.time then
      let w := (tr.getTimeUntilReset st.time).getD 0
      if 0 < w then (.wait (rateLimitWaitRecord attempt w st.time) w, st)
      else (.proceed, st)
    else (.proceed, st)
  | none => (.proceed, st)

/-- `performPreChecks` (src/retry/pre-checks.ts): cancellation first, then
circuit-breaker admission (note `canExecute` may transition the breaker to
half-open, and the refusal message reads the state after that call), then
rate-limit exhaustion. -/
def performPreChecks (env : Env) (attempt : Nat) (st : RunState) : PreCheckRes × RunState :=
  if jsAborted env st.time then
    (.terminate (cancelAttemptRecord attempt st.time), st)
  else
    match st.cb with
    | some cb =>
      let ce := cb.canExecute st.time
      let st1 := { st with cb := some ce.2 }
      if ce.1 = false then
        (.terminate (breakerAttemptRecord attempt ce.2.state st1.time), st1)
      else rateLimitCheck attempt st1
    | none => rateLimitCheck attempt st

/-- `new Error(String(err))` wrapping of non-`Error` throws
(src/retry/attempt-handler.ts); the original value is kept only as a
diagnostic field and is not modelled beyond its string rendering. -/
def wrapThrown : ThrownValue → JsError
  | .errObj e => e
  | .rawValue s => { message := s }

/-- The normalisation of the policy's return value
(src/retry/attempt-handler.ts): a non-null value that is not a finite
non-negative number becomes null. -/
def normalizeDelay : Option JSNum → Option JSNum
  | none => none
  | some j => if !jsIsFinite j || jsLtQ j 0 then none else some j

/-- Whether the Retry-After override fires
(src/retry/attempt-handler.ts): domain `RateLimit` and a truthy
`retryAfter` in the extracted metadata. -/
def overrideApplies (domain : FailureDomain) (md : Option ResponseMetadata) : Bool :=
  decide (domain = .rateLimit) &&
    (match md.bind (fun m => m.retryAfter) with
     | some k => decide (k ≠ 0)
     | none => false)

/-- The truthy `retryAfter` value of the metadata (only read when
`overrideApplies`). -/
def mdRetryAfterValue (md : Option ResponseMetadata) : ℤ :=
  match md.bind (fun m => m.retryAfter) with
  | some k => k
  | none => 0

/-- The Retry-After override delay (src/retry/attempt-handler.ts):
`delay = retryAfter * 1000; delay = Math.floor(delay + delay *
RATE_LIMIT_JITTER_FACTOR * Math.random())` with `u` the random draw. -/
def rateLimitOverrideDelay (retryAfter : ℤ) (u : ℚ) : ℤ :=
  ⌊((retryAfter * 1000 : ℤ) : ℚ) + ((retryAfter * 1000 : ℤ) : ℚ) * RATE_LIMIT_JITTER_FACTOR * u⌋

/-- The jitter the spec describes for the override: symmetric ±10%, i.e.
the random draw mapped onto [−1, 1) as the exponential policy does. -/
def specSymmetricOverrideDelay (retryAfter : ℤ) (u : ℚ) : ℤ :=
  ⌊((retryAfter * 1000 : ℤ) : ℚ) +
    ((retryAfter * 1000 : ℤ) : ℚ) * RATE_LIMIT_JITTER_FACTOR * (2 * u - 1)⌋

/-- The caller-visible slice of `executeAttempt`'s `AttemptResult`
(src/retry/attempt-handler.ts). -/
structure AttemptRes where
  success : Bool
  result : JsValue
  error : Option JsError
  failureDomain : FailureDomain
  delay : Option ℤ
  attemptRecord : RetryAttempt

/-- `executeAttempt` (src/retry/attempt-handler.ts): invoke the operation;
on success build a success record, notify the breaker and decrement the
tracker; on failure wrap, extract metadata, classify, short-circuit
`Permanent`, otherwise normalise the policy delay, apply the Retry-After
override, clamp, build the failure record, notify the breaker, and feed
rate-limit headers to the tracker. -/
def executeAttempt (env : Env) (attempt : Nat) (st : RunState) : AttemptRes × RunState :=
  match env.op st.invocations with
  | .ok v =>
    ({ success := true, result := v, error := none, failureDomain := .unknown,
       delay := none,
       attemptRecord :=
         { attempt := attempt, result := some v, error := none,
           failureDomain := .unknown, delay := 0, timestamp := st.time } },
     { st with invocations := st.invocations + 1,
               cb := st.cb.map CircuitBreaker.recordSuccess,
               rlt := st.rlt.map RateLimitTracker.decrement })
  | .thrown tv =>
    let e := wrapThrown tv
    let md := extractResponseMetadata env.dateParse st.time e
    let domain := env.classify e md
    if domain = .permanent then
      ({ success := false, result := .undef, error := some e, failureDomain := domain,
         delay := none,
         attemptRecord :=
           { attempt := attempt, result := none, error := some (.user e),
             failureDomain := domain, delay := 0, timestamp := st.time } },
       { st with invocations := st.invocations + 1,
                 cb := st.cb.map (fun cb => cb.recordFailure st.time) })
    else
      let d1 := normalizeDelay (env.policy attempt domain e)
      let d2 : Option JSNum :=
        if overrideApplies domain md then
          some (.num ((rateLimitOverrideDelay (mdRetryAfterValue md) (env.rand st.randIdx) : ℤ) : ℚ))
        else d1
      let randIdx1 := if overrideApplies domain md then st.randIdx + 1 else st.randIdx
      let d3 := validateAndClampDelay d2
      let rlt1 :=
        if domain = .rateLimit ∧ (md.bind (fun m => m.headers)).isSome then
          st.rlt.map (fun tr => tr.updateFromHeaders ((md.bind (fun m => m.headers)).getD []))
        else st.rlt
      ({ success := false, result := .undef, error := some e, failureDomain := domain,
         delay := d3,
         attemptRecord :=
           { attempt := attempt, result := none, error := some (.user e),
             failureDomain := domain, delay := d3.getD 0, timestamp := st.time } },
       { st with invocations := st.invocations + 1,
                 cb := st.cb.map (fun cb => cb.recordFailure st.time),
                 rlt := rlt1, randIdx := randIdx1 })

/-- The terminal outcome of one `retry` call. -/
inductive RetryOutcome
  | success (value : JsValue) (metrics : RetryMetrics)
  | failure (e : EngineError)
  | configError (msg : String)
deriving DecidableEq, Repr

/-- The outcome the loop settles on, without consuming further attempts,
when the pushed attempt result falls through the success check into the
permanent-or-null-delay branch. -/
def immediateFailOutcome (r : AttemptRes) : Option RetryOutcome :=
  if r.success = true ∧ r.result ≠ JsValue.undef then none
  else if r.failureDomain = .permanent ∨ r.delay = none then
    some (.failure (match r.error with
                    | some e => .user e
                    | none => .unknownErr))
  else none

/-- The attempt loop of `retry` (src/retry.ts lines 58-227), by remaining
iterations: `fuel` iterations remain out of `maxA`, so the current
1-based attempt number is `maxA - fuel + 1` (the body below is invoked
with `fuel = n + 1`, hence `attempt = maxA - n`).  `continue` in a JS
`for` loop runs the update expression, so the rate-limit wait branch
recurses on `fuel - 1` exactly as the source consumes an attempt number.
Running out of fuel is the post-loop `RetryExhaustedError(maxAttempts,
undefined, undefined)` at line 231. -/
def retryLoop (env : Env) (maxA : Nat) : Nat → RunState → RetryOutcome × RunState
  | 0, st => (.failure (.exhausted maxA none none), st)
  | n + 1, st =>
    match performPreChecks env (maxA - n) st with
    | (.terminate rec, st1) =>
      (.failure (rec.error.getD .cancelledErr),
       { st1 with attempts := st1.attempts ++ [rec],
                  preflightTerminals := st1.preflightTerminals + 1 })
    | (.wait rec d, st1) =>
      let st2 := { st1 with attempts := st1.attempts ++ [rec],
                            waitIters := st1.waitIters + 1 }
      if sleepCancelled env st2.time d then (.failure .cancelledErr, st2)
      else retryLoop env maxA n { st2 with time := st2.time + d }
    | (.proceed, st1) =>
      let res := executeAttempt env (maxA - n) st1
      let st3 := { res.2 with attempts := res.2.attempts ++ [res.1.attemptRecord] }
      if res.1.success = true ∧ res.1.result ≠ JsValue.undef then
        (.success res.1.result (computeMetrics st3.attempts true), st3)
      else if res.1.failureDomain = .permanent ∨ res.1.delay = none then
        (.failure (match res.1.error with
                   | some e => .user e
                   | none => .unknownErr), st3)
      else if n = 0 then
        (.failure (.exhausted maxA res.1.error (some res.1.failureDomain)), st3)
      else
        let d := res.1.delay.getD 0
        if sleepCancelled env st3.time d then
          (.failure .cancelledErr,
           { st3 with attempts := st3.attempts ++ [cancelAttemptRecord (maxA - n) st3.time],
                      sleepCancels := st3.sleepCancels + 1 })
        else retryLoop env maxA n { st3 with time := st3.time + d }

/-- The state a run starts from: a fresh circuit breaker built from the
supplied options, a fresh tracker seeded with the supplied state, and the
clock at `Date.now()` (a supplier function for `rateLimitState` is
equivalent to the value it returns and is not distinguished). -/
def initRunState (p : RetryParamsM) (env : Env) : RunState :=
  { attempts := []
    cb := p.circuitBreaker.map CircuitBreaker.init
    rlt := p.rateLimitState.map (fun s => { state := some s })
    time := env.start
    invocations := 0
    randIdx := 0
    waitIters := 0
    preflightTerminals := 0
    sleepCancels := 0 }

/-- The attempt budget of a validated configuration. -/
def effectiveMaxAttempts (p : RetryParamsM) : Nat :=
  jsNumToNat (p.maxAttempts.getD (JSNum.num 3))

/-- `retry(params)` (src/retry.ts): eager option validation, then the
attempt loop from a fresh breaker/tracker.  Returns the terminal outcome
together with the final run state (whose `attempts` field is the history
the source returns or leaves behind). -/
def retry (p : RetryParamsM) (env : Env) : RetryOutcome × RunState :=
  match validateRetryOptions (some (p.maxAttempts.getD (JSNum.num 3))) p.timeout with
  | some msg => (.configError msg, {})
  | none =>
    retryLoop env (effectiveMaxAttempts p) (effectiveMaxAttempts p) (initRunState p env)

theorem rateLimitCheck_snd (a : Nat) (st : RunState) : (rateLimitCheck a st).2 = st := by
  unfold rateLimitCheck
  rcases hr : st.rlt with _ | tr
  · rfl
  · dsimp only
    split_ifs <;> rfl

theorem performPreChecks_snd (env : Env) (a : Nat) (st : RunState) :
    ∃ c, (performPreChecks env a st).2 = { st with cb := c } := by
  unfold performPreChecks
  split_ifs with h
  · exact ⟨st.cb, rfl⟩
  · rcases hcb : st.cb with _ | cb
    · exact ⟨st.cb, by rw [rateLimitCheck_snd]⟩
    · dsimp only
      split_ifs with hce
      · exact ⟨some (cb.canExecute st.time).2, rfl⟩
      · exact ⟨some (cb.canExecute st.time).2, by rw [rateLimitCheck_snd]⟩

theorem executeAttempt_snd (env : Env) (a : Nat) (st : RunState) :
    ∃ c r i, (executeAttempt env a st).2 =
      { st with invocations := st.invocations + 1, cb := c, rlt := r, randIdx := i } := by
  unfold executeAttempt
  rcases hop : env.op st.invocations with v | tv <;> dsimp only
  · exact ⟨_, _, st.randIdx, rfl⟩
  · split_ifs <;> exact ⟨_, _, _, rfl⟩

theorem immediateFailOutcome_spec {r : AttemptRes} {o : RetryOutcome}
    (h : immediateFailOutcome r = some o) :
    ¬(r.success = true ∧ r.result ≠ JsValue.undef) ∧
    (r.failureDomain = .permanent ∨ r.delay = none) ∧
    o = .failure (match r.error with | some e => .user e | none => .unknownErr) := by
  unfold immediateFailOutcome at h
  split_ifs at h with h1 h2
  exact ⟨h1, h2, (Option.some_inj.mp h).symm⟩

theorem retryLoop_immediate (env : Env) (maxA k : Nat) (out : RetryOutcome)
    (H : ∀ a st, st.invocations = k →
      immediateFailOutcome (executeAttempt env a st).1 = some out) :
    ∀ fuel st, st.invocations ≤ k →
      (retryLoop env maxA fuel st).2.invocations ≤ k + 1 ∧
      ((retryLoop env maxA fuel st).2.invocations = k + 1 →
        (retryLoop env maxA fuel st).1 = out) := by
  intro fuel
  induction fuel with
  | zero =>
    intro st hle
    constructor
    · simp only [retryLoop]
      omega
    · intro h
      simp only [retryLoop] at h
      omega
  | succ n ih =>
    intro st hle
    obtain ⟨c, hc⟩ := performPreChecks_snd env (maxA - n) st
    simp only [retryLoop]
    rcases hpc : performPreChecks env (maxA - n) st with ⟨pc, st1⟩
    have hst1 : st1 = { st with cb := c } := by
      rw [← hc, hpc]
    have hinv1 : st1.invocations = st.invocations := by rw [hst1]
    cases pc with
    | terminate rec =>
      dsimp only
      constructor
      · omega
      · intro h
        omega
    | wait rec d =>
      dsimp only
      split_ifs with hsc
      · constructor
        · dsimp only
          omega
        · intro h
          dsimp only at h
          omega
      · exact ih _ (by dsimp only; omega)
    | proceed =>
      dsimp only
      obtain ⟨c2, r2, i2, he⟩ := executeAttempt_snd env (maxA - n) st1
      have hinv2 : (executeAttempt env (maxA - n) st1).2.invocations = st1.invocations + 1 := by
        rw [he]
      by_cases hk : st1.invocations = k
      · have himm := H (maxA - n) st1 hk
        obtain ⟨hns, hpn, hout⟩ := immediateFailOutcome_spec himm
        rw [if_neg hns, if_pos hpn]
        constructor
        · dsimp only
          omega
        · intro _
          exact hout.symm
      · have hlt : st1.invocations < k := by omega
        split_ifs with h1 h2 h3 hsc
        · constructor
          · dsimp only
            omega
          · intro h
            dsimp only at h
            omega
        · constructor
          · dsimp only
            omega
          · intro h
            dsimp only at h
            omega
        · constructor
          · dsimp only
            omega
          · intro h
            dsimp only at h
            omega
        · constructor
          · dsimp only
            omega
          · intro h
            dsimp only at h
            omega
        · exact ih _ (by dsimp only; omega)

/-- The bookkeeping invariant of the loop: the history length is the number
of operation invocations plus the number of rate-limit wait records plus
the number of terminal pre-check records plus the number of cancelled-sleep
records. -/
def balancedState (st : RunState) : Prop :=
  st.attempts.length = st.invocations + st.waitIters + st.preflightTerminals + st.sleepCancels

theorem retryLoop_balanced (env : Env) (maxA : Nat) :
    ∀ fuel st, balancedState st → balancedState (retryLoop env maxA fuel st).2 := by
  intro fuel
  induction fuel with
  | zero =>
    intro st h
    simpa only [retryLoop] using h
  | succ n ih =>
    intro st h
    obtain ⟨c, hc⟩ := performPreChecks_snd env (maxA - n) st
    simp only [retryLoop]
    rcases hpc : performPreChecks env (maxA - n) st with ⟨pc, st1⟩
    have hst1 : st1 = { st with cb := c } := by
      rw [← hc, hpc]
    have hb1 : balancedState st1 := by
      rw [hst1]
      simpa only [balancedState] using h
    cases pc with
    | terminate rec =>
      simp only [balancedState, List.length_append, List.length_cons, List.length_nil] at hb1 ⊢
      omega
    | wait rec d =>
      dsimp only
      split_ifs with hsc
      · simp only [balancedState, List.length_append, List.length_cons, List.length_nil] at hb1 ⊢
        omega
      · refine ih _ ?_
        simp only [balancedState, List.length_append, List.length_cons, List.length_nil] at hb1 ⊢
        omega
    | proceed =>
      dsimp only
      obtain ⟨c2, r2, i2, he⟩ := executeAttempt_snd env (maxA - n) st1
      have hb3 : balancedState
          { (executeAttempt env (maxA - n) st1).2 with
            attempts := (executeAttempt env (maxA - n) st1).2.attempts ++
              [(executeAttempt env (maxA - n) st1).1.attemptRecord] } := by
        rw [he]
        simp only [balancedState, List.length_append, List.length_cons, List.length_nil] at hb1 ⊢
        omega
      split_ifs with h1 h2 h3 hsc
      · exact hb3
      · exact hb3
      · exact hb3
      · simp only [balancedState, List.length_append, List.length_cons,
          List.length_nil] at hb3 ⊢
        omega
      · refine ih _ ?_
        simpa only [balancedState] using hb3

theorem retryLoop_fuel_bound (env : Env) (maxA : Nat) :
    ∀ fuel st,
      (retryLoop env maxA fuel st).2.invocations + (retryLoop env maxA fuel st).2.waitIters ≤
        st.invocations + st.waitIters + fuel := by
  intro fuel
  induction fuel with
  | zero =>
    intro st
    simp only [retryLoop]
    omega
  | succ n ih =>
    intro st
    obtain ⟨c, hc⟩ := performPreChecks_snd env (maxA - n) st
    simp only [retryLoop]
    rcases hpc : performPreChecks env (maxA - n) st with ⟨pc, st1⟩
    have hst1 : st1 = { st with cb := c } := by
      rw [← hc, hpc]
    have hi1 : st1.invocations = st.invocations := by rw [hst1]
    have hw1 : st1.waitIters = st.waitIters := by rw [hst1]
    cases pc with
    | terminate rec =>
      dsimp only
      omega
    | wait rec d =>
      dsimp only
      split_ifs with hsc
      · dsimp only
        omega
      · refine (ih _).trans ?_
        dsimp only
        omega
    | proceed =>
      dsimp only
      obtain ⟨c2, r2, i2, he⟩ := executeAttempt_snd env (maxA - n) st1
      have hi2 : (executeAttempt env (maxA - n) st1).2.invocations = st1.invocations + 1 := by
        rw [he]
      have hw2 : (executeAttempt env (maxA - n) st1).2.waitIters = st1.waitIters := by
        rw [he]
      split_ifs with h1 h2 h3 hsc
      · dsimp only
        omega
      · dsimp only
        omega
      · dsimp only
        omega
      · dsimp only
        omega
      · refine (ih _).trans ?_
        dsimp only
        omega

theorem foldl_add_eq_sum (l : List ℤ) : ∀ init : ℤ,
    l.foldl (fun s d => s + d) init = init + l.sum := by
  induction l with
  | nil => intro init; simp
  | cons a l ih =>
    intro init
    simp only [List.foldl_cons, List.sum_cons, ih]
    ring

theorem foldl_domainCounts (l : List RetryAttempt) : ∀ acc : DomainCounts,
    l.foldl (fun acc a => if a.error ≠ none then acc.bump a.failureDomain else acc) acc =
    { rateLimit := acc.rateLimit + l.countP (hasErrorIn .rateLimit)
      transient := acc.transient + l.countP (hasErrorIn .transient)
      permanent := acc.permanent + l.countP (hasErrorIn .permanent)
      unknown := acc.unknown + l.countP (hasErrorIn .unknown) } := by
  induction l with
  | nil =>
    intro acc
    simp only [List.foldl_nil, List.countP_nil, Nat.add_zero]
  | cons a l ih =>
    intro acc
    simp only [List.foldl_cons, List.countP_cons, ih]
    rcases he : a.error with _ | e
    · simp [hasErrorIn, he]
    · cases hd : a.failureDomain <;>
        simp [hasErrorIn, he, hd, DomainCounts.bump, DomainCounts.mk.injEq] <;> omega

/-- C7: `computeMetrics` over a history of length n and a success flag
equals the reference definition: `retryRate = (n−1)/n` for `n > 1` else 0,
`successRate` binary by the flag, `averageDelay` the mean of the strictly
positive delays among all attempts but the last (0 when there are none),
`failureDomainDistribution` a four-key zero-initialised record counting
only attempts carrying an error, and `totalRetries = n − 1` (natural
subtraction, hence `= n − 1` for every `n ≥ 1`). -/
theorem computeMetrics_eq_specMetrics :
    ∀ (attempts : List RetryAttempt) (wasSuccessful : Bool),
      computeMetrics attempts wasSuccessful = specMetrics attempts wasSuccessful := by
  intro attempts flag
  unfold computeMetrics specMetrics
  dsimp only
  rw [RetryMetrics.mk.injEq]
  refine ⟨?_, rfl, ?_, ?_, rfl⟩
  · by_cases h : 1 < attempts.length
    · rw [if_pos h, if_pos h, Nat.cast_sub (by omega), Nat.cast_one]
    · rw [if_neg h, if_neg h]
  · by_cases h : (attempts.dropLast.map (fun a => a.delay)).filter (fun d => 0 < d) = []
    · rw [if_neg (by rw [h]; simp), if_pos h]
    · rw [if_pos (by simpa [List.length_pos] using h), if_neg h,
        foldl_add_eq_sum, zero_add]
  · rw [foldl_domainCounts]
    simp

/-- C8: `parseRetryAfter` maps a string whose integer parse succeeds to
that integer, maps a string that parses as a date (and not as an integer)
to `max(0, floor((date − now)/1000))` seconds, yields no value when
neither parse succeeds, and yields no value for an absent header. -/
theorem parseRetryAfter_spec :
    (∀ (dp : String → Option ℤ) (now : ℤ) (s : String) (k : ℤ),
        jsParseInt s = some k → parseRetryAfter dp now (some s) = some k) ∧
    (∀ (dp : String → Option ℤ) (now : ℤ) (s : String) (t : ℤ),
        s ≠ "" → jsParseInt s = none → dp s = some t →
        parseRetryAfter dp now (some s) = some (max 0 (Int.fdiv (t - now) 1000))) ∧
    (∀ (dp : String → Option ℤ) (now : ℤ) (s : String),
        jsParseInt s = none → dp s = none → parseRetryAfter dp now (some s) = none) ∧
    (∀ (dp : String → Option ℤ) (now : ℤ), parseRetryAfter dp now none = none) := by
  refine ⟨?_, ?_, ?_, ?_⟩
  · intro dp now s k h
    by_cases hs : s = ""
    · rw [hs] at h
      rw [show jsParseInt "" = none from rfl] at h
      exact Option.noConfusion h
    · simp [parseRetryAfter, hs, h]
  · intro dp now s t hs h1 h2
    simp [parseRetryAfter, hs, h1, h2]
  · intro dp now s h1 h2
    by_cases hs : s = ""
    · simp [parseRetryAfter, hs]
    · simp [parseRetryAfter, hs, h1, h2]
  · intro dp now
    rfl

/-- Witness for C8 at concrete inputs: the integer string "120" yields
120, an HTTP-date string resolving 60500 ms after a clock of 500 yields
60 seconds, and an unparseable string yields no value. -/
theorem parseRetryAfter_spec_witness :
    parseRetryAfter (fun _ => none) 0 (some "120") = some 120 ∧
    parseRetryAfter (fun _ => some 61000) 1000 (some "Thu, 01 Jan 2026 00:01:00 GMT") =
      some 60 ∧
    parseRetryAfter (fun _ => none) 0 (some "soon") = none := by
  refine ⟨parseRetryAfter_spec.1 _ 0 "120" 120 (by decide), ?_, ?_⟩
  · have := parseRetryAfter_spec.2.1 (fun _ => some 61000) 1000
      "Thu, 01 Jan 2026 00:01:00 GMT" 61000 (by decide) (by decide) rfl
    rw [this]
    decide
  · exact parseRetryAfter_spec.2.2.1 _ 0 "soon" (by decide) rfl

/-- C9: a `maxAttempts` that is non-integer or below 1, or a `timeout`
that is non-finite or ≤ 0, makes `retry` fail with a configuration error
before the operation is invoked even once: no invocation happens and no
attempt is recorded. -/
theorem retry_config_validation_eager (p : RetryParamsM) (env : Env)
    (h : (∃ m, p.maxAttempts = some m ∧ invalidMaxAttempts m = true) ∨
         (∃ t, p.timeout = some t ∧ invalidTimeout t = true)) :
    (∃ msg, (retry p env).1 = .configError msg) ∧
    (retry p env).2.attempts = [] ∧ (retry p env).2.invocations = 0 := by
  have hv : ∃ msg,
      validateRetryOptions (some (p.maxAttempts.getD (JSNum.num 3))) p.timeout = some msg := by
    rcases h with ⟨m, hm, hi⟩ | ⟨t, ht, hi⟩
    · exact ⟨"maxAttempts must be a positive integer",
        by simp [validateRetryOptions, hm, hi]⟩
    · rcases hma : p.maxAttempts with _ | m
      · exact ⟨"timeout must be a positive number",
          by simp [validateRetryOptions, validateTimeoutOpt, hma, ht, hi,
            (by decide : invalidMaxAttempts (JSNum.num 3) = false)]⟩
      · by_cases him : invalidMaxAttempts m = true
        · exact ⟨"maxAttempts must be a positive integer",
            by simp [validateRetryOptions, hma, him]⟩
        · exact ⟨"timeout must be a positive number",
            by simp [validateRetryOptions, validateTimeoutOpt, hma, ht, hi, him]⟩
  obtain ⟨msg, hmsg⟩ := hv
  unfold retry
  rw [hmsg]
  exact ⟨⟨msg, rfl⟩, rfl, rfl⟩

/-- A minimal environment for closed instantiations. -/
def plainEnv : Env :=
  { op := fun _ => .ok (.val 1)
    classify := httpClassify
    policy := fun _ _ _ => some (.num 100)
    rand := fun _ => 0
    dateParse := fun _ => none
    abortAt := none
    start := 0 }

/-- Witness for C9: `maxAttempts = 0` is rejected before any invocation. -/
theorem retry_config_validation_eager_witness :
    (∃ msg, (retry { maxAttempts := some (.num 0) } plainEnv).1 = .configError msg) ∧
    (retry { maxAttempts := some (.num 0) } plainEnv).2.attempts = [] ∧
    (retry { maxAttempts := some (.num 0) } plainEnv).2.invocations = 0 :=
  retry_config_validation_eager { maxAttempts := some (.num 0) } plainEnv
    (Or.inl ⟨.num 0, rfl, by decide⟩)

/-- C10: every `retry` call builds its circuit breaker fresh from the
supplied options via `CircuitBreaker.init` (see `initRunState`, the state
`retry` starts the loop from), so at the first admission check of every
run the breaker is closed with both counters at 0 and `canExecute` admits
without transitioning; no breaker state carries over between calls. -/
theorem retry_fresh_circuit_breaker (p : RetryParamsM) (env : Env) (o : CBParams)
    (h : p.circuitBreaker = some o) :
    (initRunState p env).cb = some (CircuitBreaker.init o) ∧
    (CircuitBreaker.init o).state = .closed ∧
    (CircuitBreaker.init o).failureCount = 0 ∧
    (CircuitBreaker.init o).successCount = 0 ∧
    ∀ now : ℤ, (CircuitBreaker.init o).canExecute now = (true, CircuitBreaker.init o) := by
  refine ⟨?_, rfl, rfl, rfl, fun now => rfl⟩
  simp [initRunState, h]

/-- Witness for C10 at concrete options. -/
theorem retry_fresh_circuit_breaker_witness :
    (initRunState { circuitBreaker := some ⟨3, 2, 1000⟩ } plainEnv).cb =
      some (CircuitBreaker.init ⟨3, 2, 1000⟩) ∧
    (CircuitBreaker.init ⟨3, 2, 1000⟩).state = .closed ∧
    (CircuitBreaker.init ⟨3, 2, 1000⟩).failureCount = 0 ∧
    (CircuitBreaker.init ⟨3, 2, 1000⟩).successCount = 0 ∧
    ∀ now : ℤ, (CircuitBreaker.init ⟨3, 2, 1000⟩).canExecute now =
      (true, CircuitBreaker.init ⟨3, 2, 1000⟩) :=
  retry_fresh_circuit_breaker { circuitBreaker := some ⟨3, 2, 1000⟩ } plainEnv ⟨3, 2, 1000⟩ rfl

/-- A breaker with failureThreshold 2, successThreshold 1, timeout 5 ms. -/
def c2Breaker0 : CircuitBreaker :=
  CircuitBreaker.init { failureThreshold := 2, successThreshold := 1, timeout := 5 }

/-- The breaker after: two failures (opens), an admission check past the
timeout (half-opens), and one success (closes). -/
def c2Breaker4 : CircuitBreaker :=
  ((((c2Breaker0.recordFailure 1).recordFailure 2).canExecute 10).2).recordSuccess

/-- Counterexample to C2 as stated: after `successThreshold` successes in
half-open the breaker is closed and the success counter is 0, but the
failure counter is *not* reset to 0 (it still holds 2), so the very next
single failure while closed immediately re-opens the breaker even though
`failureThreshold = 2`. -/
theorem circuitBreaker_counterexample :
    c2Breaker4.state = .closed ∧
    c2Breaker4.successCount = 0 ∧
    ¬ c2Breaker4.failureCount = 0 ∧
    (c2Breaker4.recordFailure 11).state = .open := by
  refine ⟨by decide, by decide, by decide, by decide⟩

/-- C2 (amended): the three-state machine as the code implements it.
While closed, a failure bumps the counter and opens the breaker exactly
when the counter reaches `failureThreshold`; while open with a recorded
(non-zero) last failure time, the next `canExecute` at or past the timeout
transitions to half-open and admits, otherwise refuses; while half-open,
reaching `successThreshold` successes transitions to closed resetting the
success counter to 0 but leaving the failure counter unchanged; any single
failure while half-open transitions back to open and resets the success
counter. -/
theorem circuitBreaker_transitions :
    ∀ (cb : CircuitBreaker) (now : ℤ),
      (cb.state = .closed →
        (cb.recordFailure now).failureCount = cb.failureCount + 1 ∧
        ((cb.recordFailure now).state = .open ↔
          cb.params.failureThreshold ≤ cb.failureCount + 1)) ∧
      (∀ t, cb.state = .open → cb.lastFailureTime = some t → t ≠ 0 →
        cb.canExecute now =
          (if cb.params.timeout ≤ now - t then (true, { cb with state := .halfOpen })
           else (false, cb))) ∧
      (cb.state = .halfOpen →
        cb.recordSuccess =
          (if cb.params.successThreshold ≤ cb.successCount + 1 then
            { cb with state := .closed, successCount := 0 }
           else { cb with successCount := cb.successCount + 1 })) ∧
      (cb.state = .halfOpen →
        cb.recordFailure now =
          { cb with state := .open, successCount := 0,
                    failureCount := cb.failureCount + 1, lastFailureTime := some now }) := by
  intro cb now
  refine ⟨?_, ?_, ?_, ?_⟩
  · intro hs
    unfold CircuitBreaker.recordFailure
    dsimp only
    rw [hs]
    dsimp only
    by_cases ht : cb.params.failureThreshold ≤ cb.failureCount + 1
    · rw [if_pos ht]
      exact ⟨rfl, by simp [ht]⟩
    · rw [if_neg ht]
      refine ⟨rfl, ?_⟩
      constructor
      · intro hcon
        exact absurd hcon (by simp)
      · intro hcon
        exact absurd hcon ht
  · intro t hs hlf ht
    unfold CircuitBreaker.canExecute
    rw [hs]
    dsimp only
    rw [hlf]
    dsimp only
    by_cases hc : cb.params.timeout ≤ now - t
    · rw [if_pos ⟨ht, hc⟩, if_pos hc]
    · rw [if_neg (fun hh => hc hh.2), if_neg hc]
  · intro hs
    unfold CircuitBreaker.recordSuccess
    rw [hs]
  · intro hs
    unfold CircuitBreaker.recordFailure
    dsimp only
    rw [hs]

/-- Witness for the amended C2 at a concrete breaker: one failure while
closed below the threshold keeps it closed; the half-open success path
closes `c2Breaker4`'s predecessor while leaving the failure counter at 2. -/
theorem circuitBreaker_transitions_witness :
    ((c2Breaker0.recordFailure 0).failureCount = c2Breaker0.failureCount + 1 ∧
      ((c2Breaker0.recordFailure 0).state = .open ↔
        c2Breaker0.params.failureThreshold ≤ c2Breaker0.failureCount + 1)) ∧
    ((((c2Breaker0.recordFailure 1).recordFailure 2).canExecute 10).2).recordSuccess =
      (if (((((c2Breaker0.recordFailure 1).recordFailure 2).canExecute 10).2)).params.successThreshold ≤
          (((((c2Breaker0.recordFailure 1).recordFailure 2).canExecute 10).2)).successCount + 1 then
        { ((((c2Breaker0.recordFailure 1).recordFailure 2).canExecute 10).2) with
            state := .closed, successCount := 0 }
       else
        { ((((c2Breaker0.recordFailure 1).recordFailure 2).canExecute 10).2) with
            successCount :=
              (((((c2Breaker0.recordFailure 1).recordFailure 2).canExecute 10).2)).successCount + 1 }) :=
  ⟨(circuitBreaker_transitions c2Breaker0 0).1 rfl,
   (circuitBreaker_transitions ((((c2Breaker0.recordFailure 1).recordFailure 2).canExecute 10).2) 0).2.2.1
     (by decide)⟩

/-- C5 (code behaviour at the failing input): for every random draw
`u ≥ 0` the override delay the code computes for a Retry-After of 100 s is
at least 100000 ms — the jitter `delay * RATE_LIMIT_JITTER_FACTOR *
Math.random()` is only ever added, never subtracted — whereas the
symmetric ±10% jitter the claim (and the constant's own doc comment)
describes reaches 90000 ms at draw 0. -/
theorem rateLimitOverride_jitter_one_sided :
    ∀ u : ℚ, 0 ≤ u →
      100000 ≤ rateLimitOverrideDelay 100 u ∧
      specSymmetricOverrideDelay 100 0 = 90000 := by
  intro u hu
  constructor
  · unfold rateLimitOverrideDelay RATE_LIMIT_JITTER_FACTOR
    rw [Int.le_floor]
    push_cast
    nlinarith
  · unfold specSymmetricOverrideDelay RATE_LIMIT_JITTER_FACTOR
    have hx : ((100 * 1000 : ℤ) : ℚ) + ((100 * 1000 : ℤ) : ℚ) * (1 / 10) * (2 * 0 - 1) =
        ((90000 : ℤ) : ℚ) := by
      push_cast
      ring
    rw [hx, Int.floor_intCast]

/-- Witness for C5 at the concrete draw 1/2. -/
theorem rateLimitOverride_jitter_one_sided_witness :
    (0 : ℚ) ≤ 1 / 2 ∧
    (100000 ≤ rateLimitOverrideDelay 100 (1 / 2) ∧
      specSymmetricOverrideDelay 100 0 = 90000) :=
  ⟨by norm_num, rateLimitOverride_jitter_one_sided (1 / 2) (by norm_num)⟩

/-- A run whose first preflight finds the rate limit exhausted (remaining
0 until t = 50) and whose operation then succeeds immediately. -/
def c1Env : Env :=
  { op := fun _ => .ok (.val 7)
    classify := httpClassify
    policy := fun _ _ _ => some (.num 100)
    rand := fun _ => 0
    dateParse := fun _ => none
    abortAt := none
    start := 0 }

/-- Two attempts with a rate-limit window that blocks the first preflight. -/
def c1Params : RetryParamsM :=
  { maxAttempts := some (.num 2)
    rateLimitState := some { remaining := 0, resetAt := 50, limit := 1 } }

/-- Counterexample to C1 as stated: in this run the rate-limit wait
iteration pushes an informational record into the history and consumes an
attempt number, so the final history has 2 records while the operation was
invoked only once — `attempts.length ≠ invocations`, and the operation can
no longer be invoked `maxAttempts = 2` times. -/
theorem retry_attempt_accounting_counterexample :
    (retry c1Params c1Env).2.attempts.length = 2 ∧
    (retry c1Params c1Env).2.invocations = 1 ∧
    (retry c1Params c1Env).2.waitIters = 1 ∧
    ¬ (retry c1Params c1Env).2.attempts.length = (retry c1Params c1Env).2.invocations :=
  ⟨by decide, by decide, by decide, by decide⟩

/-- C1 (amended): the history length equals the number of operation
invocations plus the number of rate-limit wait records plus the number of
terminal pre-check records plus the number of cancelled-sleep records —
rate-limit wait iterations do record an informational attempt.  Moreover a
wait iteration consumes an attempt number exactly like an invocation
(`continue` runs the `for` update), so invocations + waits never exceed
the attempt budget, and the operation can be invoked at most
`maxAttempts − waitIters` times. -/
theorem retry_attempt_accounting (p : RetryParamsM) (env : Env) :
    (retry p env).2.attempts.length =
      (retry p env).2.invocations + (retry p env).2.waitIters +
        (retry p env).2.preflightTerminals + (retry p env).2.sleepCancels ∧
    (retry p env).2.invocations + (retry p env).2.waitIters ≤ effectiveMaxAttempts p := by
  unfold retry
  rcases hv : validateRetryOptions (some (p.maxAttempts.getD (JSNum.num 3))) p.timeout
    with _ | msg
  · dsimp only
    constructor
    · have hb := retryLoop_balanced env (effectiveMaxAttempts p) (effectiveMaxAttempts p)
        (initRunState p env) (by simp [balancedState, initRunState])
      simpa [balancedState] using hb
    · have hf := retryLoop_fuel_bound env (effectiveMaxAttempts p) (effectiveMaxAttempts p)
        (initRunState p env)
      simpa [initRunState] using hf
  · dsimp only
    exact ⟨rfl, by simp⟩

/-- An operation that resolves with `undefined` on every invocation. -/
def c3Env : Env :=
  { op := fun _ => .ok .undef
    classify := httpClassify
    policy := fun _ _ _ => some (.num 100)
    rand := fun _ => 0
    dateParse := fun _ => none
    abortAt := none
    start := 0 }

/-- Three attempts for the undefined-success run. -/
def c3Params : RetryParamsM := { maxAttempts := some (.num 3) }

/-- C3: when an invocation resolves with `undefined`, the success branch's
`result !== undefined` guard fails, the attempt result (with `delay =
null`) falls into the fail-immediately branch, and since it carries no
error the engine throws the generic `Error("Unknown error")` with no
further invocations: once invocation `k` happens the run performs no
invocation beyond it and terminates with that generic error. -/
theorem retry_undefined_success_falls_through (p : RetryParamsM) (env : Env) (k : Nat)
    (hop : env.op k = .ok .undef) :
    (retry p env).2.invocations ≤ k + 1 ∧
    ((retry p env).2.invocations = k + 1 → (retry p env).1 = .failure .unknownErr) := by
  have H : ∀ a st, st.invocations = k →
      immediateFailOutcome (executeAttempt env a st).1 = some (.failure .unknownErr) := by
    intro a st hst
    unfold executeAttempt
    rw [hst, hop]
    rfl
  unfold retry
  rcases hv : validateRetryOptions (some (p.maxAttempts.getD (JSNum.num 3))) p.timeout
    with _ | msg
  · dsimp only
    exact retryLoop_immediate env (effectiveMaxAttempts p) k (.failure .unknownErr) H
      (effectiveMaxAttempts p) (initRunState p env) (by simp [initRunState])
  · dsimp only
    have h0 : (({} : RunState)).invocations = 0 := rfl
    constructor
    · omega
    · intro hcon
      omega

/-- Witness for C3: the first invocation resolves `undefined`; the run
performs exactly that one invocation and throws the generic error. -/
theorem retry_undefined_success_falls_through_witness :
    (retry c3Params c3Env).2.invocations ≤ 1 ∧
    ((retry c3Params c3Env).2.invocations = 1 →
      (retry c3Params c3Env).1 = .failure .unknownErr) :=
  retry_undefined_success_falls_through c3Params c3Env 0 rfl

/-- A permanently-failing (HTTP 400) error and environment. -/
def c4Err : JsError := { message := "Bad request", status := some 400 }

/-- Every invocation throws the 400 error. -/
def c4Env : Env :=
  { op := fun _ => .thrown (.errObj c4Err)
    classify := httpClassify
    policy := fun _ _ _ => some (.num 100)
    rand := fun _ => 0
    dateParse := fun _ => none
    abortAt := none
    start := 0 }

/-- Five attempts available; the permanent error must still stop the run
after one invocation. -/
def c4Params : RetryParamsM := { maxAttempts := some (.num 5) }

/-- C4: when invocation `k` throws an error the classifier maps to
`Permanent`, the engine performs no invocation beyond it — regardless of
`maxAttempts` — and the terminal error thrown is the original error object
produced by the operation, not a wrapper. -/
theorem retry_permanent_no_retry (p : RetryParamsM) (env : Env) (k : Nat) (e : JsError)
    (hop : env.op k = .thrown (.errObj e))
    (hcls : ∀ t : ℤ, env.classify e (extractResponseMetadata env.dateParse t e) = .permanent) :
    (retry p env).2.invocations ≤ k + 1 ∧
    ((retry p env).2.invocations = k + 1 → (retry p env).1 = .failure (.user e)) := by
  have H : ∀ a st, st.invocations = k →
      immediateFailOutcome (executeAttempt env a st).1 = some (.failure (.user e)) := by
    intro a st hst
    unfold executeAttempt
    rw [hst, hop]
    dsimp only [wrapThrown]
    rw [hcls st.time]
    rfl
  unfold retry
  rcases hv : validateRetryOptions (some (p.maxAttempts.getD (JSNum.num 3))) p.timeout
    with _ | msg
  · dsimp only
    exact retryLoop_immediate env (effectiveMaxAttempts p) k (.failure (.user e)) H
      (effectiveMaxAttempts p) (initRunState p env) (by simp [initRunState])
  · dsimp only
    have h0 : (({} : RunState)).invocations = 0 := rfl
    constructor
    · omega
    · intro hcon
      omega

/-- Witness for C4: the 400-classified error stops the run at one
invocation with the original error thrown. -/
theorem retry_permanent_no_retry_witness :
    (retry c4Params c4Env).2.invocations ≤ 1 ∧
    ((retry c4Params c4Env).2.invocations = 1 →
      (retry c4Params c4Env).1 = .failure (.user c4Err)) :=
  retry_permanent_no_retry c4Params c4Env 0 c4Err rfl (fun _ => rfl)

/-- A rate-limited (429, Retry-After 60 s) error. -/
def c6Err : JsError := { message := "rate limited", status := some 429, retryAfter := some 60 }

/-- Every invocation throws the 429 error; the policy always declines
(returns null). -/
def c6Env : Env :=
  { op := fun _ => .thrown (.errObj c6Err)
    classify := httpClassify
    policy := fun _ _ _ => none
    rand := fun _ => 0
    dateParse := fun _ => none
    abortAt := none
    start := 0 }

/-- Two attempts for the rate-limit-override run. -/
def c6Params : RetryParamsM := { maxAttempts := some (.num 2) }

/-- Counterexample to C6 as stated: the failure domain is `RateLimit`
(non-Permanent) and the policy returns null on every call, yet the engine
*does* retry — the Retry-After override replaces the null delay — so the
operation is invoked twice and the run ends in an exhaustion error rather
than failing immediately with the original error after one invocation. -/
theorem retry_null_delay_counterexample :
    (retry c6Params c6Env).2.invocations = 2 ∧
    ¬ (retry c6Params c6Env).2.invocations = 1 ∧
    (retry c6Params c6Env).1 = .failure (.exhausted 2 (some c6Err) (some .rateLimit)) :=
  ⟨by decide, by decide, by decide⟩

/-- C6 (amended): when invocation `k` throws an error whose domain is not
`Permanent`, the policy's return normalises to null, *and the Retry-After
override does not apply* (the domain is not `RateLimit` or the extracted
metadata carries no truthy Retry-After), the engine fails exactly as in
the permanent branch: no invocation beyond `k`, and the original error is
thrown unwrapped. -/
theorem retry_null_delay_no_override_fails (p : RetryParamsM) (env : Env) (k : Nat)
    (e : JsError)
    (hop : env.op k = .thrown (.errObj e))
    (hnp : ∀ t : ℤ, env.classify e (extractResponseMetadata env.dateParse t e) ≠ .permanent)
    (hnull : ∀ (t : ℤ) (a : Nat),
      normalizeDelay
        (env.policy a (env.classify e (extractResponseMetadata env.dateParse t e)) e) = none)
    (hnoov : ∀ t : ℤ,
      overrideApplies (env.classify e (extractResponseMetadata env.dateParse t e))
        (extractResponseMetadata env.dateParse t e) = false) :
    (retry p env).2.invocations ≤ k + 1 ∧
    ((retry p env).2.invocations = k + 1 → (retry p env).1 = .failure (.user e)) := by
  have H : ∀ a st, st.invocations = k →
      immediateFailOutcome (executeAttempt env a st).1 = some (.failure (.user e)) := by
    intro a st hst
    unfold executeAttempt
    rw [hst, hop]
    dsimp only [wrapThrown]
    rw [if_neg (hnp st.time)]
    dsimp only
    rw [hnoov st.time, hnull st.time a]
    simp [immediateFailOutcome, validateAndClampDelay]
  unfold retry
  rcases hv : validateRetryOptions (some (p.maxAttempts.getD (JSNum.num 3))) p.timeout
    with _ | msg
  · dsimp only
    exact retryLoop_immediate env (effectiveMaxAttempts p) k (.failure (.user e)) H
      (effectiveMaxAttempts p) (initRunState p env) (by simp [initRunState])
  · dsimp only
    have h0 : (({} : RunState)).invocations = 0 := rfl
    constructor
    · omega
    · intro hcon
      omega

/-- A transient (503) error with a policy that always declines. -/
def c6wErr : JsError := { message := "boom", status := some 503 }

/-- Environment for the amended-C6 witness. -/
def c6wEnv : Env :=
  { op := fun _ => .thrown (.errObj c6wErr)
    classify := httpClassify
    policy := fun _ _ _ => none
    rand := fun _ => 0
    dateParse := fun _ => none
    abortAt := none
    start := 0 }

/-- Three attempts for the amended-C6 witness. -/
def c6wParams : RetryParamsM := { maxAttempts := some (.num 3) }

/-- Witness for the amended C6: a 503-classified (transient) error with a
null-returning policy and no Retry-After stops the run at one invocation
with the original error thrown. -/
theorem retry_null_delay_no_override_fails_witness :
    (retry c6wParams c6wEnv).2.invocations ≤ 1 ∧
    ((retry c6wParams c6wEnv).2.invocations = 1 →
      (retry c6wParams c6wEnv).1 = .failure (.user c6wErr)) :=
  retry_null_delay_no_override_fails c6wParams c6wEnv 0 c6wErr rfl
    (fun _ h => FailureDomain.noConfusion h) (fun _ _ => rfl) (fun _ => rfl)
